import Mathlib

/-!
Verification of `shadertoy-render.py` (robclark/shadertoy-render).

Shallow embedding of the single-file Python program:
* the shader-fetch logic of the `__main__` block (primary API endpoint with a
  KeyError-triggered fallback POST),
* `RenderingCanvas.__init__` (sampler declarations, fragment assembly,
  uniform initialisation, texture loading, showing the window),
* the event handlers `on_draw`, `on_timer`, `on_mouse_move`, `on_mouse_click`,
  `activate_zoom`.

External collaborators (HTTP transport + JSON parsing, image decoding, the
windowing library) are modelled as function parameters.  Python floats are
modelled as exact rationals; machine pixel coordinates as integers.
-/

/-! ## Definitions: shallow embedding of the program -/

/-- A parsed JSON value, as produced by `requests.Response.json()` or
`json.loads`.  Objects keep their field order, as Python dicts do. -/
inductive Json where
  | null
  | bool (b : Bool)
  | num (q : ℚ)
  | str (s : String)
  | arr (elems : List Json)
  | obj (fields : List (String × Json))

/-- The Python exceptions that the fetch code can raise or propagate. -/
inductive PyError where
  | keyError (k : String)
  | typeError
  | indexError
  | jsonDecodeError
  | networkError
deriving DecidableEq, Repr

/-- Python `j["Shader"]` for a parsed JSON value `j`: a dict lookup raises
`KeyError` when the key is absent; subscripting any non-dict value with a
string raises `TypeError`. -/
def Json.getField : Json → String → Except PyError Json
  | .obj fields, k =>
    match fields.lookup k with
    | some v => .ok v
    | none => .error (.keyError k)
  | _, _ => .error .typeError

/-- Python `j[0]` for a parsed JSON value `j`: list indexing (IndexError when
out of range), string indexing yields a one-character string, a dict raises
`KeyError` (JSON object keys are strings, so the integer key 0 is absent,
recorded here as the key "0"), and any other value raises `TypeError`. -/
def Json.getIndex : Json → Nat → Except PyError Json
  | .arr elems, i =>
    match elems.get? i with
    | some v => .ok v
    | none => .error .indexError
  | .str s, i =>
    match s.data.get? i with
    | some ch => .ok (.str (String.mk [ch]))
    | none => .error .indexError
  | .obj _, _ => .error (.keyError "0")
  | _, _ => .error .typeError

/-- Predicate `j.hasField k`: the parsed JSON value has field `k`.  Only an object can
have a field; every other JSON value lacks every field. -/
def Json.hasField : Json → String → Bool
  | .obj fields, k => (fields.lookup k).isSome
  | _, _ => false

/-- Module constant `url = 'https://www.shadertoy.com/api/v1/shaders'` -/
def url : String := "https://www.shadertoy.com/api/v1/shaders"

/-- Module constant `key = '?key=NdnKw7'` -/
def key : String := "?key=NdnKw7"

/-- Module constant `alt_url = 'https://www.shadertoy.com/shadertoy'` -/
def alt_url : String := "https://www.shadertoy.com/shadertoy"

/-- An HTTP request as issued by the script.  `dataBody = none` means a GET
(`requests.get`); `dataBody = some fields` means the form fields passed as
`data` to `urllib.request.Request`, which makes the request a POST. -/
structure HttpRequest where
  reqUrl : String
  dataBody : Option (List (String × String))
  headers : List (String × String)
deriving DecidableEq, Repr

/-- The primary request: `requests.get(url + '/' + args.id + key)`. -/
def primaryRequest (id : String) : HttpRequest :=
  { reqUrl := url ++ "/" ++ id ++ key, dataBody := none, headers := [] }

/-- Python `json.dumps({'shaders': [id]})`, with the default `json.dumps`
separators (`", "` and `": "`). -/
def jsonDumpsShaders (id : String) : String :=
  "\x7b\"shaders\": [\"" ++ id ++ "\"]\x7d"

/-- The fallback request: a POST to `alt_url` whose form payload is
`values = {'s': json.dumps({'shaders': [id]})}` and whose headers carry
`Referer: https://www.shadertoy.com/`. -/
def fallbackRequest (id : String) : HttpRequest :=
  { reqUrl := alt_url
  , dataBody := some [("s", jsonDumpsShaders id)]
  , headers := [("Referer", "https://www.shadertoy.com/")] }

/-- The fetch logic of the `__main__` block.  `http` models performing a
request and parsing its body as JSON (transport failures and JSON decode
failures surface as errors).  The `try` block computes
`s = r.json()['Shader']`; only a `KeyError` raised inside it is caught, in
which case the single fallback POST is issued and `s = j[0]` is taken from
its parsed body.  Any other exception propagates.  The returned list is the
trace of requests issued, in order. -/
def fetchShader (http : HttpRequest → Except PyError Json) (id : String) :
    List HttpRequest × Except PyError Json :=
  match (http (primaryRequest id)).bind (fun j => j.getField "Shader") with
  | .ok s => ([primaryRequest id], .ok s)
  | .error (.keyError _) =>
    ([primaryRequest id, fallbackRequest id],
     (http (fallbackRequest id)).bind (fun j => j.getIndex 0))
  | .error e => ([primaryRequest id], .error e)

/-- One entry of `renderpass['inputs']`: the fields the script reads. -/
structure ChannelInput where
  ctype : String
  channel : Nat
  src : String
deriving DecidableEq, Repr

/-- The fields of `s['renderpass'][0]` that the script reads. -/
structure RenderPass where
  inputs : List ChannelInput
  code : String
deriving DecidableEq, Repr

/-- A decoded image as returned by `imageio.imread`: a numpy array whose
`shape` attribute is `(height, width, channels)` (rows, columns, colour
planes). -/
structure Image where
  height : Nat
  width : Nat
  channels : Nat
deriving DecidableEq, Repr

/-- Attribute `img.shape`, in numpy order: `(height, width, channels)`. -/
def Image.shape (img : Image) : Nat × Nat × Nat :=
  (img.height, img.width, img.channels)

/-- The uniforms and attributes the script sets on the `gloo.Program`.
`channelTex` and `channelRes` record, in order, the assignments made to the
`iChannel<n>` sampler uniforms and the `iChannelResolution[<n>]` uniforms;
a later assignment to the same index overwrites an earlier one. -/
structure ProgramState where
  fragSource : String
  position : List (Int × Int)
  iResolution : Int × Int × Int
  iGlobalTime : ℚ
  iMouse : Int × Int × Int × Int
  iSampleRate : ℚ
  iChannelTime : List ℚ
  channelTex : List (Nat × Image)
  channelRes : List (Nat × (Nat × Nat × Nat))
deriving DecidableEq, Repr

/-- The canvas: requested (logical) size, physical size as reported by the
windowing library, the GL program, and the timer parameters `_rate` and
`_duration`. -/
structure Canvas where
  size : Nat × Nat
  physical_size : Nat × Nat
  rate : ℚ
  duration : Option ℚ
  program : ProgramState
deriving DecidableEq, Repr

/-- The `vertex` shader template (module-level constant). -/
def vertexShaderSource : String :=
  "\n#version 120\n\nattribute vec2 position;\nvoid main()\n\x7b\n    gl_Position = vec4(position, 0.0, 1.0);\n\x7d\n"

/-- The part of the `fragment` template before the first `%s`. -/
def fragmentHeader : String :=
  "\n#version 120\n\nuniform vec3      iResolution;           // viewport resolution (in pixels)\nuniform float     iGlobalTime;           // shader playback time (in seconds)\nuniform vec4      iMouse;                // mouse pixel coords\nuniform vec4      iDate;                 // (year, month, day, time in seconds)\nuniform float     iSampleRate;           // sound sample rate (i.e., 44100)\nuniform vec3      iChannelResolution[4]; // channel resolution (in pixels)\nuniform float     iChannelTime[4];       // channel playback time (in sec)\n"

/-- The part of the `fragment` template after the second `%s`: the `main()`
wrapper that calls `mainImage`. -/
def fragmentMainSuffix : String :=
  "\n\nvoid main()\n\x7b\n    mainImage(gl_FragColor, gl_FragCoord.xy);\n\x7d\n"

/-- Python `fragment % (samplers, code)`: the template has exactly two `%s` holes,
separated by a blank line. -/
def assembleFragment (samplers code : String) : String :=
  fragmentHeader ++ samplers ++ "\n\n" ++ code ++ fragmentMainSuffix

/-- Python `"\nuniform %s iChannel%d;" % (samp, chan)`. -/
def samplerDecl (samp : String) (chan : Nat) : String :=
  "\nuniform " ++ samp ++ " iChannel" ++ toString chan ++ ";"

/-- The errors `RenderingCanvas.__init__` can raise: the
`Exception("Unknown sampler type: ...")` of the sampler loop, the
`Exception("TODO: TextureCubeMap not implemented!")` for cubemaps, a failed
texture fetch/decode (an exception out of `imageio.imread`), and the
`NameError` the texture loop would hit on an unknown ctype with no previously
loaded texture (unreachable from `canvasInit`, whose sampler loop has already
rejected unknown ctypes). -/
inductive InitError where
  | unknownSampler (t : String)
  | cubemapUnsupported
  | textureFetchFailed (src : String)
  | staleNameError
deriving DecidableEq, Repr

/-- The sampler loop of `__init__`: for each input, `texture` contributes a
`sampler2D` declaration, `cubemap` a `samplerCube` declaration, `music` is
skipped, and anything else raises. -/
def samplerDecls : List ChannelInput → Except InitError String
  | [] => .ok ""
  | i :: rest =>
    if i.ctype = "texture" then
      match samplerDecls rest with
      | .ok s => .ok (samplerDecl "sampler2D" i.channel ++ s)
      | .error e => .error e
    else if i.ctype = "cubemap" then
      match samplerDecls rest with
      | .ok s => .ok (samplerDecl "samplerCube" i.channel ++ s)
      | .error e => .error e
    else if i.ctype = "music" then samplerDecls rest
    else .error (.unknownSampler i.ctype)

/-- Python `glsl = fragment % (samplers, renderpass['code'])`, with the sampler loop
run first. -/
def buildFragmentSource (rp : RenderPass) : Except InitError String :=
  match samplerDecls rp.inputs with
  | .ok samplers => .ok (assembleFragment samplers rp.code)
  | .error e => .error e

/-- Spec-side description of a single input's sampler declaration:
`sampler2D iChannel<n>` for a Texture, `samplerCube iChannel<n>` for a
Cubemap, and no declaration for Music. -/
def samplerDeclOf (i : ChannelInput) : String :=
  if i.ctype = "texture" then samplerDecl "sampler2D" i.channel
  else if i.ctype = "cubemap" then samplerDecl "samplerCube" i.channel
  else ""

/-- Spec-side description of the whole sampler section: one declaration per
input, in input order. -/
def concatDecls : List ChannelInput → String
  | [] => ""
  | i :: rest => samplerDeclOf i ++ concatDecls rest

/-- Observable actions of `__init__`, in order: creating a `gloo.Texture2D`,
assigning the `iChannel<n>` sampler uniform, assigning
`iChannelResolution[<n>]`, and `self.show()`. -/
inductive InitEvent where
  | createTexture (chan : Nat)
  | bindChannel (chan : Nat)
  | bindChannelResolution (chan : Nat) (shape : Nat × Nat × Nat)
  | showWindow
deriving DecidableEq, Repr

def InitEvent.isCreate : InitEvent → Bool
  | .createTexture _ => true
  | _ => false

/-- The channel index an event mentions, if any. -/
def InitEvent.channelOf : InitEvent → Option Nat
  | .createTexture ch => some ch
  | .bindChannel ch => some ch
  | .bindChannelResolution ch _ => some ch
  | .showWindow => none

/-- The texture loop of `__init__`.  `decode src` models
`imageio.imread("https://www.shadertoy.com/%s" % src)` (`none` = the fetch or
decode raised).  For a `texture` input a fresh texture is created and bound;
`cubemap` raises; `music` is skipped by `continue`.  Any other ctype falls
through the `if`/`elif` chain and reuses the stale `tex`/`img` variables of a
previous iteration (`prev`), raising `NameError` when there is none — this
arm is unreachable from `canvasInit`, whose sampler loop already raised for
unknown ctypes.  Returns the events performed and either the final program
state or the exception that aborted the loop. -/
def loadTextures (decode : String → Option Image) :
    List ChannelInput → Option Image → ProgramState →
    List InitEvent × Except InitError ProgramState
  | [], _, p => ([], .ok p)
  | i :: rest, prev, p =>
    if i.ctype = "texture" then
      match decode i.src with
      | none => ([], .error (.textureFetchFailed i.src))
      | some img =>
        let p2 : ProgramState := { p with
          channelTex := p.channelTex ++ [(i.channel, img)],
          channelRes := p.channelRes ++ [(i.channel, img.shape)] }
        let r := loadTextures decode rest (some img) p2
        (.createTexture i.channel :: .bindChannel i.channel ::
          .bindChannelResolution i.channel img.shape :: r.1, r.2)
    else if i.ctype = "cubemap" then
      ([], .error .cubemapUnsupported)
    else if i.ctype = "music" then
      loadTextures decode rest prev p
    else
      match prev with
      | none => ([], .error .staleNameError)
      | some img =>
        let p2 : ProgramState := { p with
          channelTex := p.channelTex ++ [(i.channel, img)],
          channelRes := p.channelRes ++ [(i.channel, img.shape)] }
        let r := loadTextures decode rest (some img) p2
        (.bindChannel i.channel ::
          .bindChannelResolution i.channel img.shape :: r.1, r.2)

/-- Method `activate_zoom`: set the viewport and the `iResolution` uniform from the
physical size, with z-component `0.`. -/
def activate_zoom (c : Canvas) : Canvas :=
  { c with program := { c.program with
      iResolution := ((c.physical_size.1 : Int), (c.physical_size.2 : Int), 0) } }

/-- The program state right after the static uniform assignments of
`__init__` (quad vertices, zero mouse, 44100 sample rate, zero per-channel
times, zero global time) and before `activate_zoom`.  Unset uniforms
(`iResolution`, `iDate`) are zero-initialised by gloo. -/
def initialProgram (glsl : String) : ProgramState :=
  { fragSource := glsl
  , position := [(-1, -1), (-1, 1), (1, 1), (-1, -1), (1, 1), (1, -1)]
  , iResolution := (0, 0, 0)
  , iGlobalTime := 0
  , iMouse := (0, 0, 0, 0)
  , iSampleRate := 44100
  , iChannelTime := [0, 0, 0, 0]
  , channelTex := []
  , channelRes := [] }

/-- The tail of `RenderingCanvas.__init__` after the program has been built
and `activate_zoom` applied: load the input textures into the program of the
canvas `c1`, then `self.show()` the window. -/
def canvasInitLoaded (decode : String → Option Image) (ins : List ChannelInput)
    (c1 : Canvas) : List InitEvent × Except InitError Canvas :=
  match (loadTextures decode ins none c1.program).2 with
  | .error e => ((loadTextures decode ins none c1.program).1, .error e)
  | .ok p => ((loadTextures decode ins none c1.program).1 ++ [InitEvent.showWindow],
      .ok { c1 with program := p })

/-- Method `RenderingCanvas.__init__`: build the sampler declarations and the
fragment source (raising on an unknown ctype), create the program and set the
static uniforms, call `activate_zoom`, start the timer (ticks are modelled
separately by `runTicks`; none fire before `__init__` returns and the app
loop runs), load the input textures, and finally `self.show()`.  `size` is
the requested size, `physical` the physical size the windowing library
reports for the created window. -/
def canvasInit (decode : String → Option Image) (size physical : Nat × Nat)
    (rate : ℚ) (duration : Option ℚ) (rp : RenderPass) :
    List InitEvent × Except InitError Canvas :=
  match buildFragmentSource rp with
  | .error e => ([], .error e)
  | .ok glsl =>
    canvasInitLoaded decode rp.inputs (activate_zoom
      { size := size, physical_size := physical, rate := rate,
        duration := duration, program := initialProgram glsl })

/-- Method `on_draw`: advance `iGlobalTime` by `1.0 / self._rate`, draw one frame at
the new time, then call `app.quit()` when a duration is configured and the
new time has reached it.  Returns the updated canvas, whether `app.quit()`
was called, and the `iGlobalTime` value the frame was drawn with. -/
def on_draw (c : Canvas) : (Canvas × Bool) × ℚ :=
  let t := c.program.iGlobalTime + 1 / c.rate
  (({ c with program := { c.program with iGlobalTime := t } },
    match c.duration with
    | some d => decide (d ≤ t)
    | none => false), t)

/-- Method `on_timer` calls `self.update()`, which requests one redraw; the
windowing library then dispatches one `on_draw`.  `runTicks c0 n` runs `n`
timer ticks of the app loop from canvas `c0`: each tick performs one draw
unless `app.quit()` has already been called, in which case the loop has
stopped.  Returns the final canvas, the quit flag, and the list of
`iGlobalTime` values of the frames drawn, in order. -/
def runTicks (c0 : Canvas) : Nat → (Canvas × Bool) × List ℚ
  | 0 => ((c0, false), [])
  | n + 1 =>
    let s := runTicks c0 n
    if s.1.2 then s
    else ((on_draw s.1.1).1, s.2 ++ [(on_draw s.1.1).2])

/-- The fields of a vispy mouse event that the handlers read:
`event.pos`, `event.press_event.pos`, `event.is_dragging`. -/
structure MouseEvent where
  pos : Int × Int
  press_pos : Int × Int
  is_dragging : Bool
deriving DecidableEq, Repr

/-- Method `on_mouse_move`: while a button is held (`event.is_dragging`), set
`iMouse` to `(x, self.size[1] - y, px, self.size[1] - py)`; otherwise do
nothing. -/
def on_mouse_move (c : Canvas) (e : MouseEvent) : Canvas :=
  if e.is_dragging then
    { c with program := { c.program with
        iMouse := (e.pos.1, (c.size.2 : Int) - e.pos.2,
                   e.press_pos.1, (c.size.2 : Int) - e.press_pos.2) } }
  else c

/-- Method `on_mouse_click`: `imouse = event.pos + event.pos` (tuple concatenation),
i.e. `(x, y, x, y)` in window pixel coordinates. -/
def on_mouse_click (c : Canvas) (e : MouseEvent) : Canvas :=
  { c with program := { c.program with
      iMouse := (e.pos.1, e.pos.2, e.pos.1, e.pos.2) } }

/-- The `iChannelResolution` assignment a single input contributes: for a
`texture` input whose image decodes, the pair of its channel index and the
decoded image's numpy shape; nothing otherwise. -/
def resOf (decode : String → Option Image) (i : ChannelInput) :
    Option (Nat × (Nat × Nat × Nat)) :=
  if i.ctype = "texture" then (decode i.src).map (fun img => (i.channel, img.shape))
  else none

/-- A decode oracle: every source decodes to a fixed image of height 2,
width 3, with 4 colour planes. -/
def texDecode : String → Option Image :=
  fun _ => some { height := 2, width := 3, channels := 4 }

/-- A render pass with a single texture input on channel 0. -/
def texPass : RenderPass :=
  { inputs := [{ ctype := "texture", channel := 0, src := "media/a/tex.png" }]
  , code := "// user code" }

/-- A render pass with a single cubemap input on channel 1. -/
def cubePass : RenderPass :=
  { inputs := [{ ctype := "cubemap", channel := 1, src := "media/a/cube00_0.png" }]
  , code := "// user code" }

/-- A render pass with no inputs. -/
def emptyPass : RenderPass := { inputs := [], code := "// user code" }

/-- A decode oracle under which every texture fetch fails (irrelevant for
passes without texture inputs). -/
def noDecode : String → Option Image := fun _ => none

/-- The canvas produced by `canvasInit noDecode (4,3) (4,3) 2 (some 1)
emptyPass`: rate 2 fps, duration 1 second. -/
def durCanvas : Canvas :=
  { size := (4, 3), physical_size := (4, 3), rate := 2, duration := some 1
  , program := { initialProgram (assembleFragment "" "// user code") with
      iResolution := (4, 3, 0) } }

/-- Canvas `durCanvas` without a duration limit (as produced with
`--duration` unset). -/
def freshCanvas : Canvas := { durCanvas with duration := none }

/-- The primary endpoint replying with a top-level JSON array. -/
def arrHttp : HttpRequest → Except PyError Json := fun _ => .ok (.arr [])

/-- The primary endpoint replying with an empty JSON object. -/
def emptyObjHttp : HttpRequest → Except PyError Json := fun _ => .ok (.obj [])

/-! ## Theorems -/

theorem fallback_ne_primary (id : String) : fallbackRequest id ≠ primaryRequest id := by
  simp [fallbackRequest, primaryRequest]

theorem samplerDecls_eq_concatDecls (ins : List ChannelInput)
    (hvalid : ∀ i ∈ ins,
      i.ctype = "texture" ∨ i.ctype = "cubemap" ∨ i.ctype = "music") :
    samplerDecls ins = .ok (concatDecls ins) := by
  induction ins with
  | nil => rfl
  | cons i rest ih =>
    have hi := hvalid i (by simp)
    have hrest := ih (fun j hj => hvalid j (by simp [hj]))
    rcases hi with h | h | h <;>
      simp [samplerDecls, concatDecls, samplerDeclOf, h, hrest]

theorem loadTextures_no_show (decode : String → Option Image)
    (ins : List ChannelInput) (prev : Option Image) (p : ProgramState) :
    InitEvent.showWindow ∉ (loadTextures decode ins prev p).1 := by
  induction ins generalizing prev p with
  | nil => simp [loadTextures]
  | cons i rest ih =>
    by_cases ht : i.ctype = "texture"
    · cases hd : decode i.src with
      | none => simp [loadTextures, ht, hd]
      | some img => simp [loadTextures, ht, hd, ih]
    · by_cases hc : i.ctype = "cubemap"
      · simp [loadTextures, ht, hc]
      · by_cases hm : i.ctype = "music"
        · simpa [loadTextures, ht, hc, hm] using ih prev p
        · cases prev with
          | none => simp [loadTextures, ht, hc, hm]
          | some img => simp [loadTextures, ht, hc, hm, ih]

theorem loadTextures_preserves (decode : String → Option Image)
    (ins : List ChannelInput) (prev : Option Image) (p q : ProgramState)
    (h : (loadTextures decode ins prev p).2 = .ok q) :
    q.iGlobalTime = p.iGlobalTime ∧ q.iResolution = p.iResolution := by
  induction ins generalizing prev p with
  | nil =>
    simp only [loadTextures, Except.ok.injEq] at h
    rw [← h]; exact ⟨rfl, rfl⟩
  | cons i rest ih =>
    by_cases ht : i.ctype = "texture"
    · cases hd : decode i.src with
      | none => simp [loadTextures, ht, hd] at h
      | some img =>
        simp only [loadTextures, ht, hd, if_pos] at h
        have hq := ih _ _ h
        exact hq
    · by_cases hc : i.ctype = "cubemap"
      · simp [loadTextures, ht, hc] at h
      · by_cases hm : i.ctype = "music"
        · simp only [loadTextures, ht, hc, hm, if_neg, if_pos,
            Bool.false_eq_true, ite_false, ite_true] at h
          exact ih _ _ h
        · cases prev with
          | none => simp [loadTextures, ht, hc, hm] at h
          | some img =>
            simp only [loadTextures, ht, hc, hm, if_neg,
              Bool.false_eq_true, ite_false] at h
            have hq := ih _ _ h
            exact hq

theorem loadTextures_ok_of (decode : String → Option Image)
    (ins : List ChannelInput) (prev : Option Image) (p : ProgramState)
    (hvalid : ∀ i ∈ ins, i.ctype = "texture" ∨ i.ctype = "music")
    (hdec : ∀ i ∈ ins, i.ctype = "texture" → (decode i.src).isSome) :
    ∃ q, (loadTextures decode ins prev p).2 = .ok q := by
  induction ins generalizing prev p with
  | nil => exact ⟨p, rfl⟩
  | cons i rest ih =>
    have hv := hvalid i (by simp)
    have hrest : ∀ j ∈ rest, j.ctype = "texture" ∨ j.ctype = "music" :=
      fun j hj => hvalid j (List.mem_cons_of_mem _ hj)
    have hdrest : ∀ j ∈ rest, j.ctype = "texture" → (decode j.src).isSome :=
      fun j hj hy => hdec j (List.mem_cons_of_mem _ hj) hy
    rcases hv with ht | hm
    · have hds := hdec i (by simp) ht
      cases hd : decode i.src with
      | none => rw [hd] at hds; simp at hds
      | some img =>
        have := ih (some img) ({ p with
          channelTex := p.channelTex ++ [(i.channel, img)],
          channelRes := p.channelRes ++ [(i.channel, img.shape)] }) hrest hdrest
        simpa [loadTextures, ht, hd] using this
    · have ht : ¬ i.ctype = "texture" := by rw [hm]; decide
      have hc : ¬ i.ctype = "cubemap" := by rw [hm]; decide
      simpa [loadTextures, ht, hc, hm] using ih prev p hrest hdrest

theorem loadTextures_cubemap_error (decode : String → Option Image)
    (ins : List ChannelInput) (prev : Option Image) (p : ProgramState)
    (hvalid : ∀ i ∈ ins,
      i.ctype = "texture" ∨ i.ctype = "cubemap" ∨ i.ctype = "music")
    (hdec : ∀ i ∈ ins, i.ctype = "texture" → (decode i.src).isSome)
    (hcube : ∃ i ∈ ins, i.ctype = "cubemap") :
    (loadTextures decode ins prev p).2 = .error .cubemapUnsupported := by
  induction ins generalizing prev p with
  | nil => simp at hcube
  | cons i rest ih =>
    have hv := hvalid i (by simp)
    have hrest : ∀ j ∈ rest,
        j.ctype = "texture" ∨ j.ctype = "cubemap" ∨ j.ctype = "music" :=
      fun j hj => hvalid j (List.mem_cons_of_mem _ hj)
    have hdrest : ∀ j ∈ rest, j.ctype = "texture" → (decode j.src).isSome :=
      fun j hj hy => hdec j (List.mem_cons_of_mem _ hj) hy
    rcases hv with ht | hc | hm
    · have hds := hdec i (by simp) ht
      cases hd : decode i.src with
      | none => rw [hd] at hds; simp at hds
      | some img =>
        have hcube' : ∃ j ∈ rest, j.ctype = "cubemap" := by
          rcases hcube with ⟨j, hj, hjc⟩
          rcases List.mem_cons.mp hj with rfl | hj'
          · simp [ht] at hjc
          · exact ⟨j, hj', hjc⟩
        simpa [loadTextures, ht, hd] using ih (some img) _ hrest hdrest hcube'
    · have ht : ¬ i.ctype = "texture" := by rw [hc]; decide
      simp [loadTextures, ht, hc]
    · have ht : ¬ i.ctype = "texture" := by rw [hm]; decide
      have hc : ¬ i.ctype = "cubemap" := by rw [hm]; decide
      have hcube' : ∃ j ∈ rest, j.ctype = "cubemap" := by
        rcases hcube with ⟨j, hj, hjc⟩
        rcases List.mem_cons.mp hj with rfl | hj'
        · simp [hm] at hjc
        · exact ⟨j, hj', hjc⟩
      simpa [loadTextures, ht, hc, hm] using ih prev p hrest hdrest hcube'

theorem loadTextures_ok_decoded (decode : String → Option Image)
    (ins : List ChannelInput) (prev : Option Image) (p q : ProgramState)
    (h : (loadTextures decode ins prev p).2 = .ok q) :
    ∀ i ∈ ins, i.ctype = "texture" → (decode i.src).isSome := by
  induction ins generalizing prev p with
  | nil => simp
  | cons i rest ih =>
    intro j hj hjt
    by_cases ht : i.ctype = "texture"
    · cases hd : decode i.src with
      | none => simp [loadTextures, ht, hd] at h
      | some img =>
        simp only [loadTextures, ht, hd, if_pos] at h
        rcases List.mem_cons.mp hj with rfl | hj'
        · rw [hd]; rfl
        · exact ih _ _ h j hj' hjt
    · by_cases hc : i.ctype = "cubemap"
      · simp [loadTextures, ht, hc] at h
      · by_cases hm : i.ctype = "music"
        · simp only [loadTextures, ht, hc, hm, if_neg, if_pos,
            Bool.false_eq_true, ite_false, ite_true] at h
          rcases List.mem_cons.mp hj with rfl | hj'
          · exact absurd hjt ht
          · exact ih _ _ h j hj' hjt
        · cases prev with
          | none => simp [loadTextures, ht, hc, hm] at h
          | some img =>
            simp only [loadTextures, ht, hc, hm, if_neg,
              Bool.false_eq_true, ite_false] at h
            rcases List.mem_cons.mp hj with rfl | hj'
            · exact absurd hjt ht
            · exact ih _ _ h j hj' hjt

theorem loadTextures_channelRes (decode : String → Option Image)
    (ins : List ChannelInput) (prev : Option Image) (p q : ProgramState)
    (hvalid : ∀ i ∈ ins, i.ctype = "texture" ∨ i.ctype = "music")
    (h : (loadTextures decode ins prev p).2 = .ok q) :
    q.channelRes = p.channelRes ++ ins.filterMap (resOf decode) := by
  induction ins generalizing prev p with
  | nil =>
    simp only [loadTextures, Except.ok.injEq] at h
    rw [← h]; simp
  | cons i rest ih =>
    have hv := hvalid i (by simp)
    have hrest : ∀ j ∈ rest, j.ctype = "texture" ∨ j.ctype = "music" :=
      fun j hj => hvalid j (List.mem_cons_of_mem _ hj)
    rcases hv with ht | hm
    · cases hd : decode i.src with
      | none => simp [loadTextures, ht, hd] at h
      | some img =>
        simp only [loadTextures, ht, hd, if_pos] at h
        have hq := ih _ _ hrest h
        simp only [hq, List.filterMap_cons, resOf, ht, hd, if_pos,
          Option.map_some]
        simp
    · have ht : ¬ i.ctype = "texture" := by rw [hm]; decide
      have hc : ¬ i.ctype = "cubemap" := by rw [hm]; decide
      simp only [loadTextures, ht, hc, hm, if_neg, if_pos,
        Bool.false_eq_true, ite_false, ite_true] at h
      have hq := ih _ _ hrest h
      simp [hq, List.filterMap_cons, resOf, ht]

theorem loadTextures_event_channels (decode : String → Option Image)
    (ins : List ChannelInput) (prev : Option Image) (p : ProgramState) :
    ∀ ev ∈ (loadTextures decode ins prev p).1, ∀ ch,
      ev.channelOf = some ch → ∃ i ∈ ins, i.channel = ch := by
  induction ins generalizing prev p with
  | nil => simp [loadTextures]
  | cons i rest ih =>
    intro ev hev ch hch
    by_cases ht : i.ctype = "texture"
    · cases hd : decode i.src with
      | none => simp [loadTextures, ht, hd] at hev
      | some img =>
        simp only [loadTextures, ht, hd, if_pos, List.mem_cons] at hev
        rcases hev with rfl | rfl | rfl | hev
        · exact ⟨i, by simp, by simpa [InitEvent.channelOf] using hch⟩
        · exact ⟨i, by simp, by simpa [InitEvent.channelOf] using hch⟩
        · exact ⟨i, by simp, by simpa [InitEvent.channelOf] using hch⟩
        · rcases ih _ _ ev hev ch hch with ⟨j, hj, hjc⟩
          exact ⟨j, by simp [hj], hjc⟩
    · by_cases hc : i.ctype = "cubemap"
      · simp [loadTextures, ht, hc] at hev
      · by_cases hm : i.ctype = "music"
        · simp only [loadTextures, ht, hc, hm, if_neg, if_pos,
            Bool.false_eq_true, ite_false, ite_true] at hev
          rcases ih _ _ ev hev ch hch with ⟨j, hj, hjc⟩
          exact ⟨j, by simp [hj], hjc⟩
        · cases prev with
          | none => simp [loadTextures, ht, hc, hm] at hev
          | some img =>
            simp only [loadTextures, ht, hc, hm, if_neg,
              Bool.false_eq_true, ite_false, List.mem_cons] at hev
            rcases hev with rfl | rfl | hev
            · exact ⟨i, by simp, by simpa [InitEvent.channelOf] using hch⟩
            · exact ⟨i, by simp, by simpa [InitEvent.channelOf] using hch⟩
            · rcases ih _ _ ev hev ch hch with ⟨j, hj, hjc⟩
              exact ⟨j, by simp [hj], hjc⟩

theorem loadTextures_create_count (decode : String → Option Image)
    (ins : List ChannelInput) (prev : Option Image) (p : ProgramState) :
    ((loadTextures decode ins prev p).1.countP InitEvent.isCreate) ≤ ins.length := by
  induction ins generalizing prev p with
  | nil => simp [loadTextures]
  | cons i rest ih =>
    by_cases ht : i.ctype = "texture"
    · cases hd : decode i.src with
      | none => simp [loadTextures, ht, hd]
      | some img =>
        have h2 := ih (some img) ({ p with
          channelTex := p.channelTex ++ [(i.channel, img)],
          channelRes := p.channelRes ++ [(i.channel, img.shape)] })
        simp [loadTextures, ht, hd, List.countP_cons, InitEvent.isCreate]
        omega
    · by_cases hc : i.ctype = "cubemap"
      · simp [loadTextures, ht, hc]
      · by_cases hm : i.ctype = "music"
        · have h2 := ih prev p
          simp [loadTextures, ht, hc, hm]
          omega
        · cases prev with
          | none => simp [loadTextures, ht, hc, hm]
          | some img =>
            have h2 := ih (some img) ({ p with
              channelTex := p.channelTex ++ [(i.channel, img)],
              channelRes := p.channelRes ++ [(i.channel, img.shape)] })
            simp [loadTextures, ht, hc, hm, List.countP_cons, InitEvent.isCreate]
            omega

theorem canvasInitLoaded_ok_elim (decode : String → Option Image)
    (ins : List ChannelInput) (c1 c : Canvas)
    (h : (canvasInitLoaded decode ins c1).2 = .ok c) :
    ∃ p, (loadTextures decode ins none c1.program).2 = .ok p ∧
      c = { c1 with program := p } := by
  unfold canvasInitLoaded at h
  cases hl : (loadTextures decode ins none c1.program).2 with
  | error e => rw [hl] at h; simp at h
  | ok p =>
    rw [hl] at h
    simp only [Except.ok.injEq] at h
    exact ⟨p, rfl, h.symm⟩

theorem canvasInitLoaded_show_iff (decode : String → Option Image)
    (ins : List ChannelInput) (c1 : Canvas) :
    InitEvent.showWindow ∈ (canvasInitLoaded decode ins c1).1 ↔
      ∃ c, (canvasInitLoaded decode ins c1).2 = .ok c := by
  unfold canvasInitLoaded
  cases hl : (loadTextures decode ins none c1.program).2 with
  | error e =>
    simp only [hl]
    constructor
    · intro hmem
      exact absurd hmem (loadTextures_no_show decode ins none c1.program)
    · rintro ⟨c, hc⟩; cases hc
  | ok p =>
    simp only [hl]
    constructor
    · intro _; exact ⟨{ c1 with program := p }, rfl⟩
    · intro _; simp

theorem canvasInit_ok_elim (decode : String → Option Image)
    (size physical : Nat × Nat) (rate : ℚ) (dur : Option ℚ) (rp : RenderPass)
    (c : Canvas) (h : (canvasInit decode size physical rate dur rp).2 = .ok c) :
    ∃ glsl p, buildFragmentSource rp = .ok glsl ∧
      (loadTextures decode rp.inputs none (activate_zoom
        { size := size, physical_size := physical, rate := rate,
          duration := dur, program := initialProgram glsl }).program).2 = .ok p ∧
      c = { activate_zoom
        { size := size, physical_size := physical, rate := rate,
          duration := dur, program := initialProgram glsl } with program := p } := by
  unfold canvasInit at h
  cases hb : buildFragmentSource rp with
  | error e => rw [hb] at h; simp at h
  | ok glsl =>
    rw [hb] at h
    simp only at h
    rcases canvasInitLoaded_ok_elim _ _ _ _ h with ⟨p, hl, hc⟩
    exact ⟨glsl, p, rfl, hl, hc⟩

theorem canvasInit_ok_fields (decode : String → Option Image)
    (size physical : Nat × Nat) (rate : ℚ) (dur : Option ℚ) (rp : RenderPass)
    (c : Canvas) (h : (canvasInit decode size physical rate dur rp).2 = .ok c) :
    c.size = size ∧ c.physical_size = physical ∧ c.rate = rate ∧
    c.duration = dur ∧ c.program.iGlobalTime = 0 ∧
    c.program.iResolution = ((physical.1 : Int), (physical.2 : Int), 0) := by
  rcases canvasInit_ok_elim _ _ _ _ _ _ _ h with ⟨glsl, p, _, hl, hc⟩
  have hp := loadTextures_preserves _ _ _ _ _ hl
  subst hc
  refine ⟨rfl, rfl, rfl, rfl, ?_, ?_⟩
  · simpa [activate_zoom, initialProgram] using hp.1
  · simpa [activate_zoom, initialProgram] using hp.2

theorem canvasInit_show_iff (decode : String → Option Image)
    (size physical : Nat × Nat) (rate : ℚ) (dur : Option ℚ) (rp : RenderPass) :
    InitEvent.showWindow ∈ (canvasInit decode size physical rate dur rp).1 ↔
      ∃ c, (canvasInit decode size physical rate dur rp).2 = .ok c := by
  unfold canvasInit
  cases hb : buildFragmentSource rp with
  | error e =>
    simp only
    constructor
    · intro hmem; simp at hmem
    · rintro ⟨c, hc⟩; cases hc
  | ok glsl => exact canvasInitLoaded_show_iff _ _ _

theorem runTicks_pres (c : Canvas) (n : Nat) :
    ((runTicks c n).1.1).rate = c.rate ∧
    ((runTicks c n).1.1).duration = c.duration := by
  induction n with
  | zero => exact ⟨rfl, rfl⟩
  | succ n ih =>
    by_cases hq : (runTicks c n).1.2 = true
    · simpa [runTicks, hq] using ih
    · have hq2 : (runTicks c n).1.2 = false := eq_false_of_ne_true hq
      simpa [runTicks, hq2, on_draw] using ih

theorem runTicks_sticky (c : Canvas) (n : Nat) (h : (runTicks c n).1.2 = true) :
    runTicks c (n + 1) = runTicks c n := by
  simp [runTicks, h]

theorem runTicks_time (c : Canvas) (n : Nat) (h : (runTicks c n).1.2 = false) :
    ((runTicks c n).1.1).program.iGlobalTime =
      c.program.iGlobalTime + n * (1 / c.rate) := by
  induction n with
  | zero => simp [runTicks]
  | succ n ih =>
    by_cases hq : (runTicks c n).1.2 = true
    · rw [runTicks_sticky c n hq] at h
      simp [h] at hq
    · have hq2 : (runTicks c n).1.2 = false := eq_false_of_ne_true hq
      have hr := (runTicks_pres c n).1
      have htime := ih hq2
      simp only [runTicks, hq2, Bool.false_eq_true, if_false, on_draw]
      rw [htime, hr]
      push_cast
      ring

theorem runTicks_quit_iff (c : Canvas) (R D : ℚ)
    (hrate : c.rate = R) (hdur : c.duration = some D)
    (ht0 : c.program.iGlobalTime = 0) (n : Nat) :
    ((runTicks c n).1.2 = true ↔
      ∃ m, 1 ≤ m ∧ m ≤ n ∧ D ≤ (m : ℚ) * (1 / R)) := by
  induction n with
  | zero =>
    simp only [runTicks]
    constructor
    · intro h; cases h
    · rintro ⟨m, h1, h2, _⟩; omega
  | succ n ih =>
    by_cases hq : (runTicks c n).1.2 = true
    · rw [runTicks_sticky c n hq]
      constructor
      · intro _
        rcases ih.mp hq with ⟨m, h1, h2, h3⟩
        exact ⟨m, h1, Nat.le_succ_of_le h2, h3⟩
      · intro _; exact hq
    · have hq2 : (runTicks c n).1.2 = false := eq_false_of_ne_true hq
      have htime := runTicks_time c n hq2
      have hr := (runTicks_pres c n).1
      have hd := (runTicks_pres c n).2
      have hstep : (runTicks c (n + 1)).1.2 =
          decide (D ≤ ((runTicks c n).1.1).program.iGlobalTime + 1 / R) := by
        rw [hrate] at hr
        rw [hdur] at hd
        simp [runTicks, hq2, on_draw, hd, hr]
      rw [hstep, htime, ht0, hrate]
      simp only [zero_add, decide_eq_true_eq]
      constructor
      · intro h
        refine ⟨n + 1, by omega, le_refl _, ?_⟩
        push_cast
        linarith
      · rintro ⟨m, h1, h2, h3⟩
        rcases Nat.lt_or_ge m (n + 1) with hm | hm
        · exact absurd (ih.mpr ⟨m, h1, by omega, h3⟩) hq
        · have hmn : m = n + 1 := by omega
          subst hmn
          push_cast at h3
          linarith

theorem runTicks_frames (c : Canvas) (R D : ℚ)
    (hrate : c.rate = R) (hdur : c.duration = some D)
    (ht0 : c.program.iGlobalTime = 0) (hD : 0 ≤ D) (n : Nat) :
    ∀ t ∈ (runTicks c n).2, t ≤ D + 1 / R := by
  induction n with
  | zero => simp [runTicks]
  | succ n ih =>
    by_cases hq : (runTicks c n).1.2 = true
    · rw [runTicks_sticky c n hq]; exact ih
    · have hq2 : (runTicks c n).1.2 = false := eq_false_of_ne_true hq
      have hr := (runTicks_pres c n).1
      have htime := runTicks_time c n hq2
      intro t ht
      simp only [runTicks, hq2, Bool.false_eq_true, if_false, on_draw,
        List.mem_append, List.mem_singleton] at ht
      rcases ht with ht | rfl
      · exact ih t ht
      · rw [htime, hr, ht0, hrate]
        simp only [zero_add]
        rcases Nat.eq_zero_or_pos n with rfl | hn
        · simp only [Nat.cast_zero, zero_mul, zero_add]
          linarith
        · have hnq : ¬ (D ≤ (n : ℚ) * (1 / R)) := fun hle =>
            hq ((runTicks_quit_iff c R D hrate hdur ht0 n).mpr
              ⟨n, hn, le_refl _, hle⟩)
          linarith

theorem runTicks_stops (c : Canvas) (R D : ℚ) (hR : 0 < R)
    (hrate : c.rate = R) (hdur : c.duration = some D)
    (ht0 : c.program.iGlobalTime = 0) :
    ∃ n, (runTicks c n).1.2 = true := by
  obtain ⟨m, hm⟩ : ∃ m : ℕ, D * R ≤ m := exists_nat_ge (D * R)
  have hR0 : R ≠ 0 := ne_of_gt hR
  refine ⟨m + 1, (runTicks_quit_iff c R D hrate hdur ht0 (m + 1)).mpr
    ⟨m + 1, by omega, le_refl _, ?_⟩⟩
  have h1 : D * R ≤ ((m + 1 : ℕ) : ℚ) := by push_cast; linarith
  have h2 : D = D * R * (1 / R) := by field_simp
  rw [h2]
  apply mul_le_mul_of_nonneg_right h1
  positivity

theorem runTicks_noquit (c : Canvas) (hdur : c.duration = none) (n : Nat) :
    (runTicks c n).1.2 = false := by
  induction n with
  | zero => rfl
  | succ n ih =>
    have hd := (runTicks_pres c n).2
    rw [hdur] at hd
    simp [runTicks, ih, on_draw, hd]

theorem fetchShader_of_obj_none (http : HttpRequest → Except PyError Json)
    (id : String) (fields : List (String × Json))
    (hp : http (primaryRequest id) = .ok (.obj fields))
    (hlk : fields.lookup "Shader" = none) :
    fetchShader http id = ([primaryRequest id, fallbackRequest id],
      (http (fallbackRequest id)).bind (fun j => j.getIndex 0)) := by
  simp [fetchShader, hp, Json.getField, hlk, Except.bind]

theorem fetchShader_trace_of_not (http : HttpRequest → Except PyError Json)
    (id : String)
    (hkey : ∀ k, http (primaryRequest id) ≠ .error (.keyError k))
    (hnot : ¬ ∃ fields, http (primaryRequest id) = .ok (.obj fields) ∧
      fields.lookup "Shader" = none) :
    (fetchShader http id).1 = [primaryRequest id] := by
  cases hp : http (primaryRequest id) with
  | error e =>
    cases e with
    | keyError k => exact absurd hp (hkey k)
    | typeError => simp [fetchShader, hp, Except.bind]
    | indexError => simp [fetchShader, hp, Except.bind]
    | jsonDecodeError => simp [fetchShader, hp, Except.bind]
    | networkError => simp [fetchShader, hp, Except.bind]
  | ok j =>
    cases j with
    | obj fields =>
      cases hlk : fields.lookup "Shader" with
      | some v => simp [fetchShader, hp, Json.getField, hlk, Except.bind]
      | none => exact absurd ⟨fields, hp, hlk⟩ hnot
    | null => simp [fetchShader, hp, Json.getField, Except.bind]
    | bool b => simp [fetchShader, hp, Json.getField, Except.bind]
    | num q => simp [fetchShader, hp, Json.getField, Except.bind]
    | str t => simp [fetchShader, hp, Json.getField, Except.bind]
    | arr elems => simp [fetchShader, hp, Json.getField, Except.bind]

theorem fetchShader_propagates (http : HttpRequest → Except PyError Json)
    (id : String) (e : PyError)
    (hp : http (primaryRequest id) = .error e)
    (hne : ∀ k, e ≠ .keyError k) :
    fetchShader http id = ([primaryRequest id], .error e) := by
  cases e with
  | keyError k => exact absurd rfl (hne k)
  | typeError => simp [fetchShader, hp, Except.bind]
  | indexError => simp [fetchShader, hp, Except.bind]
  | jsonDecodeError => simp [fetchShader, hp, Except.bind]
  | networkError => simp [fetchShader, hp, Except.bind]

theorem canvasInitLoaded_ok (decode : String → Option Image)
    (ins : List ChannelInput) (c1 : Canvas) (p : ProgramState)
    (h : (loadTextures decode ins none c1.program).2 = .ok p) :
    (canvasInitLoaded decode ins c1).2 = .ok { c1 with program := p } := by
  unfold canvasInitLoaded
  rw [h]

theorem canvasInitLoaded_cubemap (decode : String → Option Image)
    (ins : List ChannelInput) (c1 : Canvas)
    (hvalid : ∀ i ∈ ins,
      i.ctype = "texture" ∨ i.ctype = "cubemap" ∨ i.ctype = "music")
    (hdec : ∀ i ∈ ins, i.ctype = "texture" → (decode i.src).isSome)
    (hcube : ∃ i ∈ ins, i.ctype = "cubemap") :
    (canvasInitLoaded decode ins c1).2 = .error .cubemapUnsupported ∧
    InitEvent.showWindow ∉ (canvasInitLoaded decode ins c1).1 := by
  have herr := loadTextures_cubemap_error decode ins none c1.program hvalid hdec hcube
  constructor
  · unfold canvasInitLoaded
    rw [herr]
  · unfold canvasInitLoaded
    rw [herr]
    exact loadTextures_no_show decode ins none c1.program

theorem canvasInitLoaded_events_bounds (decode : String → Option Image)
    (ins : List ChannelInput) (c1 : Canvas)
    (hlen : ins.length ≤ 4) (hchan : ∀ i ∈ ins, i.channel ≤ 3) :
    ((canvasInitLoaded decode ins c1).1.countP InitEvent.isCreate) ≤ 4 ∧
    ∀ ev ∈ (canvasInitLoaded decode ins c1).1, ∀ ch,
      ev.channelOf = some ch → ch ≤ 3 := by
  have hcount := loadTextures_create_count decode ins none c1.program
  have hch := loadTextures_event_channels decode ins none c1.program
  unfold canvasInitLoaded
  cases hl : (loadTextures decode ins none c1.program).2 with
  | error e =>
    refine ⟨le_trans hcount hlen, ?_⟩
    intro ev hev ch hc
    rcases hch ev hev ch hc with ⟨i, hi, hic⟩
    exact hic ▸ hchan i hi
  | ok p =>
    constructor
    · rw [List.countP_append]
      have h0 : ([InitEvent.showWindow].countP InitEvent.isCreate) = 0 := rfl
      rw [h0]
      omega
    · intro ev hev ch hc
      rcases List.mem_append.mp hev with hev | hev
      · rcases hch ev hev ch hc with ⟨i, hi, hic⟩
        exact hic ▸ hchan i hi
      · rw [List.mem_singleton.mp hev] at hc
        cases hc

theorem canvasInitLoaded_ok_exists (decode : String → Option Image)
    (ins : List ChannelInput) (c1 : Canvas)
    (hvalid : ∀ i ∈ ins, i.ctype = "texture" ∨ i.ctype = "music")
    (hdec : ∀ i ∈ ins, i.ctype = "texture" → (decode i.src).isSome) :
    ∃ c, (canvasInitLoaded decode ins c1).2 = .ok c := by
  rcases loadTextures_ok_of decode ins none c1.program hvalid hdec with ⟨q, hq⟩
  exact ⟨_, canvasInitLoaded_ok decode ins c1 q hq⟩

theorem canvasInit_ok_of (decode : String → Option Image)
    (size physical : Nat × Nat) (rate : ℚ) (dur : Option ℚ) (rp : RenderPass)
    (hvalid : ∀ i ∈ rp.inputs, i.ctype = "texture" ∨ i.ctype = "music")
    (hdec : ∀ i ∈ rp.inputs, i.ctype = "texture" → (decode i.src).isSome) :
    ∃ c, (canvasInit decode size physical rate dur rp).2 = .ok c := by
  have hvalid3 : ∀ i ∈ rp.inputs,
      i.ctype = "texture" ∨ i.ctype = "cubemap" ∨ i.ctype = "music" :=
    fun i hi => (hvalid i hi).elim Or.inl (fun h => Or.inr (Or.inr h))
  have hb : buildFragmentSource rp =
      .ok (assembleFragment (concatDecls rp.inputs) rp.code) := by
    unfold buildFragmentSource
    rw [samplerDecls_eq_concatDecls rp.inputs hvalid3]
  unfold canvasInit
  rw [hb]
  exact canvasInitLoaded_ok_exists decode rp.inputs _ hvalid hdec

/-- C1: the claim states that after texture load, `iChannelResolution[i]`
equals the decoded image's (width, height, 0).  The code instead assigns
`img.shape`, which in numpy order is (height, width, channels): for a texture
input on channel 0 whose image decodes with height 2, width 3 and 4 colour
planes, initialisation succeeds and sets `iChannelResolution[0]` to
(2, 3, 4), which differs from the (3, 2, 0) the claim requires. -/
theorem C1_shape_eval :
    ((canvasInit texDecode (8, 6) (8, 6) 30 none texPass).2.map
      (fun c => c.program.channelRes)) = .ok [(0, (2, 3, 4))] ∧
    ((2, 3, 4) : Nat × Nat × Nat) ≠ ((3, 2, 0) : Nat × Nat × Nat) :=
  ⟨rfl, by decide⟩

/-- C2: if `--duration` D ≥ 0 is set and the rate R is positive, then for the
canvas produced by initialisation the app quits exactly from the first tick
whose (post-increment) `iGlobalTime`, m·(1/R), has reached D; every frame is
drawn with `iGlobalTime` ≤ D + 1/R; and the run does stop. -/
theorem C2_duration_stop (decode : String → Option Image)
    (size physical : Nat × Nat) (R D : ℚ) (rp : RenderPass) (c : Canvas)
    (hR : 0 < R) (hD : 0 ≤ D)
    (hinit : (canvasInit decode size physical R (some D) rp).2 = .ok c) :
    (∀ n, ((runTicks c n).1.2 = true ↔
        ∃ m, 1 ≤ m ∧ m ≤ n ∧ D ≤ (m : ℚ) * (1 / R))) ∧
    (∀ n, ∀ t ∈ (runTicks c n).2, t ≤ D + 1 / R) ∧
    (∃ n, (runTicks c n).1.2 = true) := by
  have hf := canvasInit_ok_fields _ _ _ _ _ _ _ hinit
  exact ⟨runTicks_quit_iff c R D hf.2.2.1 hf.2.2.2.1 hf.2.2.2.2.1,
         runTicks_frames c R D hf.2.2.1 hf.2.2.2.1 hf.2.2.2.2.1 hD,
         runTicks_stops c R D hR hf.2.2.1 hf.2.2.2.1 hf.2.2.2.2.1⟩

theorem C2_witness :
    (0 : ℚ) < 2 ∧ (0 : ℚ) ≤ 1 ∧ (∃ n, (runTicks durCanvas n).1.2 = true) ∧
    (∀ t ∈ (runTicks durCanvas 3).2, t ≤ 1 + 1 / 2) := by
  have h := C2_duration_stop noDecode (4, 3) (4, 3) 2 1 emptyPass durCanvas
    zero_lt_two zero_le_one rfl
  exact ⟨zero_lt_two, zero_le_one, h.2.2, h.2.1 3⟩

/-- C3: starting from a freshly initialised canvas with rate R and no
duration limit, after N timer ticks (each tick one redraw, each redraw one
draw incrementing by 1/R) the `iGlobalTime` uniform is exactly N·(1/R) (the
model uses exact rationals for the float accumulation). -/
theorem C3_time_accumulation (decode : String → Option Image)
    (size physical : Nat × Nat) (R : ℚ) (rp : RenderPass) (c : Canvas) (N : ℕ)
    (hinit : (canvasInit decode size physical R none rp).2 = .ok c) :
    ((runTicks c N).1.1).program.iGlobalTime = (N : ℚ) * (1 / R) := by
  have hf := canvasInit_ok_fields _ _ _ _ _ _ _ hinit
  have hnq := runTicks_noquit c hf.2.2.2.1 N
  have ht := runTicks_time c N hnq
  rw [hf.2.2.2.2.1, hf.2.2.1] at ht
  simpa using ht

theorem C3_witness :
    ((runTicks freshCanvas 5).1.1).program.iGlobalTime = ((5 : ℕ) : ℚ) * (1 / 2) :=
  C3_time_accumulation noDecode (4, 3) (4, 3) 2 emptyPass freshCanvas 5 rfl

/-- C4 counterexample: when the primary endpoint's response parses to a
top-level JSON array, the parsed JSON lacks the `Shader` field, yet the
fallback is NOT taken: `j['Shader']` on a Python list raises `TypeError`,
which the `except KeyError` clause does not catch, so after the single
primary request the error propagates. -/
theorem C4_counterexample :
    (Json.arr []).hasField "Shader" = false ∧
    (fetchShader arrHttp "Ms2SD1").1 = [primaryRequest "Ms2SD1"] ∧
    fallbackRequest "Ms2SD1" ∉ (fetchShader arrHttp "Ms2SD1").1 ∧
    (fetchShader arrHttp "Ms2SD1").2 = .error .typeError := by
  refine ⟨rfl, rfl, ?_, rfl⟩
  intro hmem
  have htr : (fetchShader arrHttp "Ms2SD1").1 = [primaryRequest "Ms2SD1"] := rfl
  rw [htr] at hmem
  exact fallback_ne_primary _ (List.mem_singleton.mp hmem)

/-- C4 (amended): provided the transport/parse oracle never itself raises a
`KeyError`, the fallback is taken iff the primary response parses to a JSON
OBJECT lacking the `Shader` field (a non-object response instead propagates
a `TypeError`); the fallback is the single POST of the form payload
`s = json.dumps({"shaders": [id]})` with a `Referer` header, whose result is
the first element of a top-level JSON array; and any non-KeyError failure of
the primary request propagates after that single request. -/
theorem C4_fallback_amended (http : HttpRequest → Except PyError Json)
    (id : String) (hkey : ∀ req k, http req ≠ .error (.keyError k)) :
    ((fallbackRequest id ∈ (fetchShader http id).1) ↔
      ∃ fields, http (primaryRequest id) = .ok (.obj fields) ∧
        fields.lookup "Shader" = none) ∧
    ((fallbackRequest id).dataBody = some [("s", jsonDumpsShaders id)] ∧
      (fallbackRequest id).headers = [("Referer", "https://www.shadertoy.com/")]) ∧
    ((fallbackRequest id ∈ (fetchShader http id).1) →
      (fetchShader http id).1 = [primaryRequest id, fallbackRequest id] ∧
      ∀ x xs, http (fallbackRequest id) = .ok (.arr (x :: xs)) →
        (fetchShader http id).2 = .ok x) ∧
    (∀ e, http (primaryRequest id) = .error e → (∀ k, e ≠ .keyError k) →
      fetchShader http id = ([primaryRequest id], .error e)) := by
  have hkeyp : ∀ k, http (primaryRequest id) ≠ .error (.keyError k) :=
    fun k => hkey _ k
  refine ⟨⟨?_, ?_⟩, ⟨rfl, rfl⟩, ?_, ?_⟩
  · intro hmem
    by_cases hex : ∃ fields, http (primaryRequest id) = .ok (.obj fields) ∧
        fields.lookup "Shader" = none
    · exact hex
    · rw [fetchShader_trace_of_not http id hkeyp hex] at hmem
      exact absurd (List.mem_singleton.mp hmem) (fallback_ne_primary id)
  · rintro ⟨fields, hp, hlk⟩
    rw [fetchShader_of_obj_none http id fields hp hlk]
    simp
  · intro hmem
    by_cases hex : ∃ fields, http (primaryRequest id) = .ok (.obj fields) ∧
        fields.lookup "Shader" = none
    · rcases hex with ⟨fields, hp, hlk⟩
      rw [fetchShader_of_obj_none http id fields hp hlk]
      refine ⟨rfl, ?_⟩
      intro x xs hf
      rw [hf]
      simp [Except.bind, Json.getIndex]
    · rw [fetchShader_trace_of_not http id hkeyp hex] at hmem
      exact absurd (List.mem_singleton.mp hmem) (fallback_ne_primary id)
  · intro e hp hne
    exact fetchShader_propagates http id e hp hne

theorem C4_witness :
    fallbackRequest "Ms2SD1" ∈ (fetchShader emptyObjHttp "Ms2SD1").1 ∧
    (fetchShader emptyObjHttp "Ms2SD1").1 =
      [primaryRequest "Ms2SD1", fallbackRequest "Ms2SD1"] ∧
    (fallbackRequest "Ms2SD1").dataBody = some [("s", jsonDumpsShaders "Ms2SD1")] := by
  have h := C4_fallback_amended emptyObjHttp "Ms2SD1"
    (fun req k hk => by simp [emptyObjHttp] at hk)
  have hmem : fallbackRequest "Ms2SD1" ∈ (fetchShader emptyObjHttp "Ms2SD1").1 :=
    h.1.mpr ⟨[], rfl, rfl⟩
  exact ⟨hmem, (h.2.2.1 hmem).1, h.2.1.1⟩

/-- C5: for a render pass whose inputs have known ctypes and whose texture
images decode, the presence of a Cubemap input makes initialisation raise
the cubemap-unsupported error with the window never shown; in general the
window is shown iff initialisation succeeds, and success implies every
texture input decoded. -/
theorem C5_cubemap_aborts_before_show (decode : String → Option Image)
    (size physical : Nat × Nat) (rate : ℚ) (dur : Option ℚ) (rp : RenderPass)
    (hvalid : ∀ i ∈ rp.inputs,
      i.ctype = "texture" ∨ i.ctype = "cubemap" ∨ i.ctype = "music") :
    ((∃ i ∈ rp.inputs, i.ctype = "cubemap") →
      (∀ i ∈ rp.inputs, i.ctype = "texture" → (decode i.src).isSome) →
      (canvasInit decode size physical rate dur rp).2 = .error .cubemapUnsupported ∧
      InitEvent.showWindow ∉ (canvasInit decode size physical rate dur rp).1) ∧
    (InitEvent.showWindow ∈ (canvasInit decode size physical rate dur rp).1 ↔
      ∃ c, (canvasInit decode size physical rate dur rp).2 = .ok c) ∧
    (∀ c, (canvasInit decode size physical rate dur rp).2 = .ok c →
      ∀ i ∈ rp.inputs, i.ctype = "texture" → (decode i.src).isSome) := by
  refine ⟨?_, canvasInit_show_iff decode size physical rate dur rp, ?_⟩
  · intro hcube hdec
    have hb : buildFragmentSource rp =
        .ok (assembleFragment (concatDecls rp.inputs) rp.code) := by
      unfold buildFragmentSource
      rw [samplerDecls_eq_concatDecls rp.inputs hvalid]
    unfold canvasInit
    rw [hb]
    exact canvasInitLoaded_cubemap decode rp.inputs _ hvalid hdec hcube
  · intro c hc
    rcases canvasInit_ok_elim _ _ _ _ _ _ _ hc with ⟨glsl, p, _, hl, _⟩
    exact loadTextures_ok_decoded _ _ _ _ _ hl

theorem C5_witness :
    (canvasInit texDecode (4, 3) (4, 3) 30 none cubePass).2 =
      .error .cubemapUnsupported ∧
    InitEvent.showWindow ∉ (canvasInit texDecode (4, 3) (4, 3) 30 none cubePass).1 := by
  have h := C5_cubemap_aborts_before_show texDecode (4, 3) (4, 3) 30 none cubePass
    (by decide)
  exact h.1 (by decide) (by decide)

/-- C6: for every render pass with known ctypes, the assembled fragment
source is exactly the fixed header, followed by one sampler uniform
declaration per input in input order (`sampler2D iChannel<n>` for a texture,
`samplerCube iChannel<n>` for a cubemap, none for music), followed by the
pass's user code, followed by the `main()` wrapper that calls `mainImage`. -/
theorem C6_fragment_assembly (rp : RenderPass)
    (hvalid : ∀ i ∈ rp.inputs,
      i.ctype = "texture" ∨ i.ctype = "cubemap" ∨ i.ctype = "music") :
    buildFragmentSource rp = .ok (fragmentHeader ++ concatDecls rp.inputs ++
      "\n\n" ++ rp.code ++ fragmentMainSuffix) := by
  unfold buildFragmentSource
  rw [samplerDecls_eq_concatDecls rp.inputs hvalid]
  rfl

theorem C6_witness :
    buildFragmentSource texPass = .ok (fragmentHeader ++ concatDecls texPass.inputs ++
      "\n\n" ++ texPass.code ++ fragmentMainSuffix) :=
  C6_fragment_assembly texPass (by decide)

/-- C7: on a mouse-move event with a button held (`is_dragging`), the handler
sets the `iMouse` uniform to (currentX, H - currentY, pressX, H - pressY)
where H is the window height — the Y coordinates are flipped to a bottom-left
origin. -/
theorem C7_mouse_drag_flip (c : Canvas) (e : MouseEvent)
    (h : e.is_dragging = true) :
    (on_mouse_move c e).program.iMouse =
      (e.pos.1, (c.size.2 : Int) - e.pos.2, e.press_pos.1,
        (c.size.2 : Int) - e.press_pos.2) := by
  simp [on_mouse_move, h]

theorem C7_witness :
    (on_mouse_move durCanvas
      { pos := (10, 4), press_pos := (2, 1), is_dragging := true }).program.iMouse =
      ((10 : Int), (-1 : Int), (2 : Int), (2 : Int)) := by
  have h := C7_mouse_drag_flip durCanvas
    { pos := (10, 4), press_pos := (2, 1), is_dragging := true } rfl
  rw [h]
  decide

/-- C8: under the data-model invariant (at most 4 inputs, channel indices in
0–3), initialisation creates at most 4 channel textures, and every
channel-indexed program assignment (`iChannel<n>` and
`iChannelResolution[<n>]`) uses an index in 0–3. -/
theorem C8_channel_bounds (decode : String → Option Image)
    (size physical : Nat × Nat) (rate : ℚ) (dur : Option ℚ) (rp : RenderPass)
    (hlen : rp.inputs.length ≤ 4)
    (hchan : ∀ i ∈ rp.inputs, i.channel ≤ 3) :
    ((canvasInit decode size physical rate dur rp).1.countP InitEvent.isCreate) ≤ 4 ∧
    ∀ ev ∈ (canvasInit decode size physical rate dur rp).1, ∀ ch,
      ev.channelOf = some ch → ch ≤ 3 := by
  unfold canvasInit
  cases hb : buildFragmentSource rp with
  | error e =>
    refine ⟨by simp, ?_⟩
    intro ev hev
    simp at hev
  | ok glsl =>
    exact canvasInitLoaded_events_bounds decode rp.inputs _ hlen hchan

theorem C8_witness :
    ((canvasInit texDecode (8, 6) (8, 6) 30 none texPass).1.countP
      InitEvent.isCreate) ≤ 4 ∧
    ∀ ev ∈ (canvasInit texDecode (8, 6) (8, 6) 30 none texPass).1, ∀ ch,
      ev.channelOf = some ch → ch ≤ 3 :=
  C8_channel_bounds texDecode (8, 6) (8, 6) 30 none texPass (by decide) (by decide)

/-- C9: for a render pass with only texture/music inputs whose textures all
decode, initialisation succeeds and — provided the windowing library reports
the requested size as the physical size (pixel scale 1) — leaves the
`iResolution` uniform equal to the configured size with z-component 0, and
`iGlobalTime` equal to 0, before any timer tick has run. -/
theorem C9_initial_uniforms (decode : String → Option Image)
    (size : Nat × Nat) (rate : ℚ) (dur : Option ℚ) (rp : RenderPass)
    (hvalid : ∀ i ∈ rp.inputs, i.ctype = "texture" ∨ i.ctype = "music")
    (hdec : ∀ i ∈ rp.inputs, i.ctype = "texture" → (decode i.src).isSome) :
    ∃ c, (canvasInit decode size size rate dur rp).2 = .ok c ∧
      c.program.iResolution = ((size.1 : Int), (size.2 : Int), 0) ∧
      c.program.iGlobalTime = 0 := by
  rcases canvasInit_ok_of decode size size rate dur rp hvalid hdec with ⟨c, hc⟩
  have hf := canvasInit_ok_fields _ _ _ _ _ _ _ hc
  exact ⟨c, hc, hf.2.2.2.2.2, hf.2.2.2.2.1⟩

theorem C9_witness :
    ∃ c, (canvasInit texDecode (8, 6) (8, 6) 30 none texPass).2 = .ok c ∧
      c.program.iResolution = ((8 : Int), (6 : Int), 0) ∧
      c.program.iGlobalTime = 0 :=
  C9_initial_uniforms texDecode (8, 6) 30 none texPass (by decide) (by decide)

/-- C10: a mouse-move event with no button held (`is_dragging` false) leaves
the whole canvas — `iMouse` and every other piece of state — unchanged. -/
theorem C10_mouse_move_no_drag (c : Canvas) (e : MouseEvent)
    (h : e.is_dragging = false) : on_mouse_move c e = c := by
  simp [on_mouse_move, h]

theorem C10_witness :
    on_mouse_move durCanvas
      { pos := (10, 4), press_pos := (2, 1), is_dragging := false } = durCanvas :=
  C10_mouse_move_no_drag durCanvas
    { pos := (10, 4), press_pos := (2, 1), is_dragging := false } rfl
